import Mathlib

/-!
Verification development for the math-problem content generator's
persistence-orchestration and content-transformation layer.

The definitions below are a shallow embedding of the TypeScript sources:
  - services/supabaseService.ts   (DocumentStore: initSupabase, saveProblemToDb,
                                   convertLatexToPlainText)
  - services/mongoDbService.ts    (RelayBackend: initMongoDb, saveProblemToMongoDb)
  - services/googleDriveService.ts (CloudFileStore: handleSignoutClick, saveProblemToDrive)
  - App.tsx                       (convertLatexToPlainText copy, handleDownloadAsWord,
                                   the disconnect button handlers)
  - types.ts                      (Problem, Level, Difficulty)

External collaborators (the Supabase client library, the WHATWG URL parser,
fetch, the gapi client, MathJax) are modelled at their interface boundary as
described in spec sections 4.2 and 6: their observable responses are inputs to
the embedded operations, and their effects (network posts, uploads) are
explicit outputs.

All scanning functions are structurally recursive (list recursion, or recursion
on a fuel argument initialised to the input length) so that every definition
reduces in the kernel.  Wherever fuel is used, one unit of fuel is spent per
input character consumed (each step consumes at least one character), so
fuel = length of the input is always sufficient and the fuel never runs out.
-/

/-! ## Data model (types.ts) -/

/-- Curriculum level enum (types.ts).  Values are the Korean UI strings. -/
inductive Level where
  | Elementary
  | Middle
  | High
deriving DecidableEq, Repr

/-- The string value carried by each `Level` enum member. -/
def Level.str : Level → String
  | .Elementary => "초등"
  | .Middle => "중등"
  | .High => "고등"

/-- Difficulty enum (types.ts).  Values are the Korean UI strings. -/
inductive Difficulty where
  | Concept
  | Basic
  | Fundamental
  | Medium
  | Advanced
  | Intense
  | Top
deriving DecidableEq, Repr

/-- The string value carried by each `Difficulty` enum member. -/
def Difficulty.str : Difficulty → String
  | .Concept => "개념 확인"
  | .Basic => "기초"
  | .Fundamental => "기본"
  | .Medium => "보통"
  | .Advanced => "발전"
  | .Intense => "심화"
  | .Top => "최상위"

/-- A content record as produced by the generator (types.ts `Problem`).
The generator returns exactly the three markup fields; the optional
database-side fields (id, created_at, the `_plain` columns) are produced by
the backends, not carried by a fresh record. -/
structure Problem where
  problem : String
  answer : String
  solution : String
deriving DecidableEq, Repr

/-! ## Character-level helpers shared by the embedded string transforms

`lbrace`/`rbrace` are the literal brace characters (written via their code
points).  `startsWithChars pat l` is `true` iff `pat` is a prefix of `l`;
`occurs pat l` is `true` iff `pat` occurs as a contiguous substring of `l`
(for the nonempty patterns used here). -/

/-- The character with code point 123. -/
def lbrace : Char := Char.ofNat 123

/-- The character with code point 125. -/
def rbrace : Char := Char.ofNat 125

/-- `startsWithChars pat l = true` iff `pat` is a prefix of `l`. -/
def startsWithChars : List Char → List Char → Bool
  | [], _ => true
  | _ :: _, [] => false
  | p :: ps, c :: rest => p == c && startsWithChars ps rest

/-- `occurs pat l = true` iff the (nonempty) pattern `pat` occurs as a
contiguous substring of `l`. -/
def occurs (pat : List Char) : List Char → Bool
  | [] => false
  | c :: rest => startsWithChars pat (c :: rest) || occurs pat rest

/-- `s.startsWith pre` of JavaScript, on the embedded character lists. -/
def strStartsWith (s pre : String) : Bool := startsWithChars pre.data s.data

/-- The whitespace class used by JavaScript's `\s` and `String.trim`
(restricted to the characters that can occur in this application's data:
ASCII whitespace, NBSP and the BOM). -/
def isJsSpace (c : Char) : Bool :=
  c == ' ' || c == '\t' || c == '\n' || c == '\r' || c == '\x0b' || c == '\x0c' ||
  c == '\u00A0' || c == '\uFEFF'

/-- JavaScript `String.prototype.trim` on character lists: drop leading and
trailing whitespace. -/
def jsTrim (l : List Char) : List Char :=
  ((l.dropWhile isJsSpace).reverse.dropWhile isJsSpace).reverse

/-! ## MarkupNormalizer (`convertLatexToPlainText`)

The source applies, in order:
  1. `.replace(/\$\$|\\\[|\\\]|\$/g, '')`
  2. `.replace(/\\times/g, 'x')`
  3. `.replace(/\\div/g, '÷')`
  4. `.replace(/\\cdot/g, '·')`
  5. `.replace(/\\frac\s*\{([^}]+)\}\s*\{([^}]+)\}/g, '$1/$2')`
  6. `.replace(/[{}]/g, '')`
  7. `.trim()`
Each `replace` is a single left-to-right scan; replacements are not rescanned.
-/

/-- Scanner for pass 1.  All four regex alternatives are deleted, so matching
`$$` as one token or as two consecutive single `$` tokens yields the same
output; the scanner therefore deletes every `$` one at a time and deletes the
two-character sequences backslash-`[` and backslash-`]`. -/
def stripDelimsAux : Nat → List Char → List Char
  | _, [] => []
  | 0, c :: rest => c :: rest
  | fuel + 1, c :: rest =>
    if c = '$' then stripDelimsAux fuel rest
    else if c = '\\' ∧ rest.head? = some '[' then stripDelimsAux fuel rest.tail
    else if c = '\\' ∧ rest.head? = some ']' then stripDelimsAux fuel rest.tail
    else c :: stripDelimsAux fuel rest

/-- Pass 1: strip the markup delimiters `$$`, `\[`, `\]`, `$`. -/
def stripDelims (l : List Char) : List Char := stripDelimsAux l.length l

/-- Generic single-pass, left-to-right, non-overlapping replacement of the
fixed nonempty pattern `pat` by `rep` (passes 2-4). -/
def replaceAllAux (pat rep : List Char) : Nat → List Char → List Char
  | _, [] => []
  | 0, c :: rest => c :: rest
  | fuel + 1, c :: rest =>
    if startsWithChars pat (c :: rest) then
      rep ++ replaceAllAux pat rep fuel ((c :: rest).drop pat.length)
    else c :: replaceAllAux pat rep fuel rest

/-- Single-pass replacement of `pat` by `rep` over a whole character list. -/
def replaceAllStr (pat rep : List Char) (l : List Char) : List Char :=
  replaceAllAux pat rep l.length l

/-- The pattern `\times`. -/
def timesPat : List Char := ['\\', 't', 'i', 'm', 'e', 's']

/-- The pattern `\div`. -/
def divPat : List Char := ['\\', 'd', 'i', 'v']

/-- The pattern `\cdot`. -/
def cdotPat : List Char := ['\\', 'c', 'd', 'o', 't']

/-- The pattern `\frac`. -/
def fracPat : List Char := ['\\', 'f', 'r', 'a', 'c']

/-- Parse one regex group `\{[^}]+\}`: an opening brace, a nonempty greedy run
of non-closing-brace characters, and a closing brace.  Returns the group body
and the remainder after the closing brace. -/
def parseBraceGroup (l : List Char) : Option (List Char × List Char) :=
  match l with
  | [] => none
  | c :: rest =>
    if c = lbrace then
      let a := rest.takeWhile (fun x => !(x == rbrace))
      match rest.dropWhile (fun x => !(x == rbrace)) with
      | _ :: r2 => if a = [] then none else some (a, r2)
      | [] => none
    else none

/-- Parse the argument part `\s*\{A\}\s*\{B\}` of the `\frac` rewrite,
starting right after the `\frac` token.  Greedy `\s*` followed by `\{` is
equivalent to skipping all whitespace and then requiring a brace. -/
def parseFracArgs (l : List Char) : Option (List Char × List Char × List Char) :=
  match parseBraceGroup (l.dropWhile isJsSpace) with
  | none => none
  | some (a, r1) =>
    match parseBraceGroup (r1.dropWhile isJsSpace) with
    | none => none
    | some (b, r2) => some (a, b, r2)

/-- Pass 5 scanner: rewrite `\frac\s*\{A\}\s*\{B\}` to `A/B`.  On a position
where `\frac` matches but the argument part does not, the scan keeps the
current character and resumes one character later, exactly like the JS regex
engine. -/
def replaceFracAux : Nat → List Char → List Char
  | _, [] => []
  | 0, c :: rest => c :: rest
  | fuel + 1, c :: rest =>
    if startsWithChars fracPat (c :: rest) then
      match parseFracArgs (rest.drop 4) with
      | some (a, b, r2) => a ++ '/' :: (b ++ replaceFracAux fuel r2)
      | none => c :: replaceFracAux fuel rest
    else c :: replaceFracAux fuel rest

/-- Pass 5: the `\frac{A}{B}` → `A/B` rewrite over a whole character list. -/
def replaceFrac (l : List Char) : List Char := replaceFracAux l.length l

/-- Pass 6: `.replace(/[{}]/g, '')` removes every brace character. -/
def stripBraces (l : List Char) : List Char :=
  l.filter (fun c => !(c == lbrace || c == rbrace))

namespace SupabaseService

/-- `convertLatexToPlainText` from services/supabaseService.ts: the
MarkupNormalizer used by the DocumentStore path to build the `_plain`
columns.  `if (!latex) return ''` maps the empty string to itself. -/
def convertLatexToPlainText (latex : String) : String :=
  if latex = "" then ""
  else
    let l1 := stripDelims latex.data
    let l2 := replaceAllStr timesPat ['x'] l1
    let l3 := replaceAllStr divPat ['÷'] l2
    let l4 := replaceAllStr cdotPat ['·'] l3
    let l5 := replaceFrac l4
    let l6 := stripBraces l5
    String.mk (jsTrim l6)

end SupabaseService

namespace AppMain

/-- `convertLatexToPlainText` from App.tsx: the textually identical copy of
the MarkupNormalizer used by the clipboard-copy handler. -/
def convertLatexToPlainText (latex : String) : String :=
  if latex = "" then ""
  else
    let l1 := stripDelims latex.data
    let l2 := replaceAllStr timesPat ['x'] l1
    let l3 := replaceAllStr divPat ['÷'] l2
    let l4 := replaceAllStr cdotPat ['·'] l3
    let l5 := replaceFrac l4
    let l6 := stripBraces l5
    String.mk (jsTrim l6)

end AppMain

/-- The markup-token condition of the plain-text identity claim: the string
contains none of `$`, the two braces, `\times`, `\div`, `\cdot`, `\frac`. -/
def MarkupTokenFree (s : String) : Prop :=
  occurs ['$'] s.data = false ∧
  occurs [lbrace] s.data = false ∧
  occurs [rbrace] s.data = false ∧
  occurs timesPat s.data = false ∧
  occurs divPat s.data = false ∧
  occurs cdotPat s.data = false ∧
  occurs fracPat s.data = false

instance (s : String) : Decidable (MarkupTokenFree s) := by
  unfold MarkupTokenFree
  infer_instance

example : SupabaseService.convertLatexToPlainText "" = "" := by decide

example : SupabaseService.convertLatexToPlainText "$x^2$" = "x^2" := by decide

example : SupabaseService.convertLatexToPlainText "\\frac\x7b1\x7d\x7b2\x7d" = "1/2" := by decide

example :
    SupabaseService.convertLatexToPlainText "\\frac\x7ba\x7d\x7bb\x7d \\cdot 2" = "a/b · 2" := by
  decide

/-! ## URL model

`new URL(...)` is a platform API.  This is a simplified WHATWG model for
absolute `http`/`https` URLs of the shape `scheme://host[/path][?query][#frag]`
(userinfo, port normalisation and percent-encoding are out of scope; they do
not occur in this application's inputs).  `new URL(url)` throws exactly when
`parseHttpUrl url = none`; in particular an `http(s)://` string with an empty
host does not parse. -/

/-- Components of a parsed absolute http(s) URL.  `path` always starts with
`/` (an absent path parses as `/`). -/
structure UrlParts where
  scheme : String
  host : String
  path : String
deriving DecidableEq, Repr

/-- Parse an absolute `http`/`https` URL (model of `new URL(s)` restricted to
the subset relevant here). -/
def parseHttpUrl (s : String) : Option UrlParts :=
  let rest? : Option (String × List Char) :=
    if strStartsWith s "http://" then some ("http", s.data.drop 7)
    else if strStartsWith s "https://" then some ("https", s.data.drop 8)
    else none
  match rest? with
  | none => none
  | some (scheme, rest) =>
    let hostChars := rest.takeWhile (fun c => !(c == '/' || c == '?' || c == '#'))
    let afterHost := rest.dropWhile (fun c => !(c == '/' || c == '?' || c == '#'))
    if hostChars = [] then none
    else
      let path :=
        match afterHost with
        | [] => "/"
        | c :: _ =>
          if c = '/' then String.mk (afterHost.takeWhile (fun x => !(x == '?' || x == '#')))
          else "/"
      some ⟨scheme, String.mk hostChars, path⟩

/-- The base path with its last segment removed (everything up to and
including the last `/`), as used by relative-reference resolution. -/
def dirNameChars (l : List Char) : List Char :=
  (l.reverse.dropWhile (fun c => !(c == '/'))).reverse

/-- Model of `new URL('api/problems', base).toString()`: WHATWG resolution of
the path-relative reference `api/problems` against `base` (the `none` branch
is unreachable for stored backend URLs, which were validated at connect
time). -/
def resolveApiProblems (base : String) : String :=
  match parseHttpUrl base with
  | some u => u.scheme ++ "://" ++ u.host ++ String.mk (dirNameChars u.path.data) ++ "api/problems"
  | none => base

/-! ## Connection/session state

Each service module holds one module-level handle (`let supabase`,
`let backendUrl`, the gapi token); App.tsx additionally holds the React
`is...Connected` flags that drive the UI. -/

/-- The handle captured by the Supabase `createClient(url, key)` call.
External collaborator model (spec sections 4.2 and 6): the DocumentStore
client is constructed from URL+key with no network round-trip and no URL
validation — connection is lazy and failures surface on first write. -/
structure SupabaseClient where
  url : String
  key : String
deriving DecidableEq, Repr

/-- The module-level handles of the three service modules. -/
structure ServiceState where
  supabase : Option SupabaseClient
  backendUrl : Option String
  gapiToken : Option String
deriving DecidableEq, Repr

/-- Process-start state: every handle absent. -/
def initialServiceState : ServiceState := ⟨none, none, none⟩

/-- Result of a connect operation: the returned boolean, the updated
module-level state, and the network endpoints contacted while connecting. -/
structure InitOutcome where
  success : Bool
  state : ServiceState
  networkCalls : List String
deriving DecidableEq, Repr

namespace SupabaseService

/-- `initSupabase` (services/supabaseService.ts:6-20): if url and key are both
nonempty, construct a client handle and return true; otherwise log and return
false, leaving the module-level handle untouched.  No network call is made in
either branch.  Under the boundary model of `createClient` (construction never
throws), the catch branch that resets the handle is unreachable. -/
def initSupabase (st : ServiceState) (url key : String) : InitOutcome :=
  if url ≠ "" ∧ key ≠ "" then ⟨true, { st with supabase := some ⟨url, key⟩ }, []⟩
  else ⟨false, st, []⟩

/-- One row as handed to `supabase.from('math_problems').insert([...])`
(services/supabaseService.ts:79-93). -/
structure InsertedRow where
  level : Level
  topic : String
  difficulty : Difficulty
  problem : String
  answer : String
  solution : String
  problem_plain : String
  answer_plain : String
  solution_plain : String
deriving DecidableEq, Repr

/-- The single row built by `saveProblemToDb`: the three raw markup fields,
the three normalizer-derived plain-text fields, and the classification. -/
def buildProblemRow (problemData : Problem) (level : Level) (topic : String)
    (difficulty : Difficulty) : InsertedRow :=
  ⟨level, topic, difficulty,
   problemData.problem, problemData.answer, problemData.solution,
   convertLatexToPlainText problemData.problem,
   convertLatexToPlainText problemData.answer,
   convertLatexToPlainText problemData.solution⟩

/-- `saveProblemToDb` (services/supabaseService.ts:65-103).  `dbError` is the
boundary input standing for the `error` component of the insert response; the
second component of the result lists the rows passed to `insert`. -/
def saveProblemToDb (st : ServiceState) (dbError : Option String) (problemData : Problem)
    (level : Level) (topic : String) (difficulty : Difficulty) :
    Except String Unit × List InsertedRow :=
  match st.supabase with
  | none => (.error "Supabase 클라이언트가 초기화되지 않았습니다. 먼저 데이터베이스에 연결하세요.", [])
  | some _ =>
    let row := buildProblemRow problemData level topic difficulty
    match dbError with
    | some msg => (.error ("데이터베이스에 문제를 저장하는 데 실패했습니다: " ++ msg), [row])
    | none => (.ok (), [row])

end SupabaseService

namespace MongoDbService

/-- `initMongoDb` (services/mongoDbService.ts:5-20): requires a nonempty URL
starting with `http://` or `https://`; then `new URL(url)` must parse (success
stores the URL, a parse failure clears the stored URL to null).  A URL
failing the prefix test leaves the previously stored URL untouched.  No
branch performs a network call. -/
def initMongoDb (st : ServiceState) (url : String) : InitOutcome :=
  if url ≠ "" ∧ (strStartsWith url "http://" = true ∨ strStartsWith url "https://" = true) then
    match parseHttpUrl url with
    | some _ => ⟨true, { st with backendUrl := some url }, []⟩
    | none => ⟨false, { st with backendUrl := none }, []⟩
  else ⟨false, st, []⟩

/-- The JSON body of the save request: the spread of the record fields merged
with the classification fields (services/mongoDbService.ts:27-32). -/
structure MongoPayload where
  problem : String
  answer : String
  solution : String
  level : Level
  topic : String
  difficulty : Difficulty
deriving DecidableEq, Repr

/-- One `fetch(endpoint, { method: 'POST', ... })` performed by the save. -/
structure MongoPost where
  url : String
  body : MongoPayload
deriving DecidableEq, Repr

/-- Boundary model of the `fetch` response: either the promise rejects with a
network-level `TypeError` (host unreachable), or a response arrives with a
status, a status text, and — when the body parses as JSON with a `message`
field — that message. -/
inductive FetchOutcome where
  | networkError
  | response (status : Nat) (statusText : String) (jsonMessage : Option String)
deriving DecidableEq, Repr

/-- The HTTP status line fallback `서버 오류: ${status} ${statusText}`. -/
def mongoStatusLine (status : Nat) (statusText : String) : String :=
  "서버 오류: " ++ Nat.repr status ++ " " ++ statusText

/-- `errorData.message || errorMessage`: the JSON body's message when present
and truthy (nonempty), otherwise the status line. -/
def mongoErrorCause (status : Nat) (statusText : String) (jsonMessage : Option String) : String :=
  match jsonMessage with
  | some m => if m = "" then mongoStatusLine status statusText else m
  | none => mongoStatusLine status statusText

/-- Prefix of the application-level save failure message. -/
def mongoSavePrefix : String := "MongoDB에 문제를 저장하는 데 실패했습니다: "

/-- The distinct message thrown when `fetch` itself rejects. -/
def mongoConnFailMsg : String := "백엔드 서버에 연결할 수 없습니다. URL 및 네트워크 연결을 확인하세요."

/-- `saveProblemToMongoDb` (services/mongoDbService.ts:22-66): without a
stored backend URL, throw the not-initialised error and perform no request;
otherwise POST the merged payload to `new URL('api/problems', backendUrl)`,
treat `response.ok` (2xx) as success, surface non-2xx as the save-failure
message carrying the JSON body's message or the status line, and surface a
fetch-level rejection as the distinct connection-failure message. -/
def saveProblemToMongoDb (st : ServiceState) (resp : FetchOutcome) (problemData : Problem)
    (level : Level) (topic : String) (difficulty : Difficulty) :
    Except String Unit × List MongoPost :=
  match st.backendUrl with
  | none => (.error "MongoDB 백엔드 서비스가 초기화되지 않았습니다. 먼저 백엔드에 연결하세요.", [])
  | some base =>
    let endpoint := resolveApiProblems base
    let post : MongoPost :=
      ⟨endpoint, ⟨problemData.problem, problemData.answer, problemData.solution,
                  level, topic, difficulty⟩⟩
    match resp with
    | .networkError => (.error mongoConnFailMsg, [post])
    | .response status statusText jsonMessage =>
      if 200 ≤ status ∧ status < 300 then (.ok (), [post])
      else (.error (mongoSavePrefix ++ mongoErrorCause status statusText jsonMessage), [post])

end MongoDbService

namespace GoogleDriveService

/-- Message of the detailed error constructed at
services/googleDriveService.ts:149 when the upload response status is not
200 — thrown inside the function's own `try` block. -/
def driveStatusErrorMsg (status : Nat) : String :=
  "Google Drive에 저장하는 데 실패했습니다. 응답 코드: " ++ Nat.repr status

/-- The fixed message of the error re-thrown by the surrounding `catch`
(services/googleDriveService.ts:153) for every failure inside the try block. -/
def driveGenericSaveErrorMsg : String :=
  "Google Drive에 문제를 저장하는 데 실패했습니다. 자세한 내용은 콘솔을 확인하세요."

/-- The not-signed-in error thrown before any upload
(services/googleDriveService.ts:114). -/
def driveNotLoggedInMsg : String := "Google Drive에 로그인되어 있지 않습니다."

/-- Boundary model of `gapi.client.request`: a response with some status, or
a transport-level rejection. -/
inductive DriveUploadOutcome where
  | response (status : Nat)
  | transportError
deriving DecidableEq, Repr

/-- What is thrown inside the try block of `saveProblemToDrive`: the
status-detail error constructed by the code itself, or the transport error
from the gapi request. -/
inductive DriveTryError where
  | thrown (msg : String)
  | transport
deriving DecidableEq, Repr

/-- `topic.split(' (')[0]`: the characters before the first occurrence of
the separator (the whole string when the separator does not occur). -/
def takeUntilPat (pat : List Char) : Nat → List Char → List Char
  | _, [] => []
  | 0, c :: rest => c :: rest
  | fuel + 1, c :: rest =>
    if startsWithChars pat (c :: rest) then []
    else c :: takeUntilPat pat fuel rest

/-- The generated Drive file name
`수학 문제 - ${level} - ${topic.split(' (')[0]} - ${timestamp}.txt`
(services/googleDriveService.ts:118); the timestamp is a boundary input. -/
def driveFileName (level : Level) (topic : String) (now : String) : String :=
  "수학 문제 - " ++ level.str ++ " - " ++
    String.mk (takeUntilPat [' ', '('] topic.data.length topic.data) ++ " - " ++ now ++ ".txt"

/-- `createProblemFileContent` (services/googleDriveService.ts:89-110): the
flat text document — classification header lines and three labelled sections
with the raw markup — trimmed like the source template literal. -/
def createProblemFileContent (problemData : Problem) (level : Level) (topic : String)
    (difficulty : Difficulty) : String :=
  String.mk (jsTrim (
    ("\n교육과정: " ++ level.str ++
     "\n주제: " ++ topic ++
     "\n난이도: " ++ difficulty.str ++
     "\n\n====================\n문제\n====================\n" ++ problemData.problem ++
     "\n\n====================\n정답\n====================\n" ++ problemData.answer ++
     "\n\n====================\n풀이\n====================\n" ++ problemData.solution ++
     "\n    ").data))

/-- One multipart upload handed to `gapi.client.request` (file name and the
plain-text file content; the fixed multipart envelope adds no information). -/
structure DriveUpload where
  fileName : String
  content : String
deriving DecidableEq, Repr

/-- `saveProblemToDrive` (services/googleDriveService.ts:112-155): without a
token, throw the not-signed-in error before any upload.  Otherwise perform
the upload; a non-200 status makes the code throw its own detailed
status error inside the `try`, and the `catch` wraps every error — the
thrown status error as well as a transport error — into the one fixed
generic message. -/
def saveProblemToDrive (st : ServiceState) (outcome : DriveUploadOutcome)
    (problemData : Problem) (level : Level) (topic : String) (difficulty : Difficulty)
    (now : String) : Except String Unit × List DriveUpload :=
  match st.gapiToken with
  | none => (.error driveNotLoggedInMsg, [])
  | some _ =>
    let upload : DriveUpload :=
      ⟨driveFileName level topic now, createProblemFileContent problemData level topic difficulty⟩
    let tryResult : Except DriveTryError Unit :=
      match outcome with
      | .response status =>
        if status = 200 then .ok () else .error (.thrown (driveStatusErrorMsg status))
      | .transportError => .error .transport
    match tryResult with
    | .ok _ => (.ok (), [upload])
    | .error _ => (.error driveGenericSaveErrorMsg, [upload])

end GoogleDriveService

namespace AppMain

/-- The App component's connection-related state: the service modules'
handles plus the React flags that drive the UI (App.tsx:238, :255, :243). -/
structure AppConnState where
  services : ServiceState
  isSupabaseConnected : Bool
  isMongoDbConnected : Bool
  isGoogleLoggedIn : Bool
deriving DecidableEq, Repr

/-- The Supabase `연결 해제` button (App.tsx:664):
`onClick={() => setIsSupabaseConnected(false)}` — it only clears the React
flag; the module-level client handle is not touched. -/
def supabaseDisconnectClick (st : AppConnState) : AppConnState :=
  { st with isSupabaseConnected := false }

/-- The MongoDB `연결 해제` button (App.tsx:711):
`onClick={() => setIsMongoDbConnected(false)}` — it only clears the React
flag; the module-level backend URL is not touched. -/
def mongoDisconnectClick (st : AppConnState) : AppConnState :=
  { st with isMongoDbConnected := false }

/-- `onSignout` (App.tsx:451) calling `handleSignoutClick`
(services/googleDriveService.ts:77-87): when a token is held, revoke it
remotely, clear the gapi token and set the logged-in flag to false; with no
token it is a no-op. -/
def onSignout (st : AppConnState) : AppConnState :=
  match st.services.gapiToken with
  | some _ =>
    { st with services := { st.services with gapiToken := none }, isGoogleLoggedIn := false }
  | none => st

/-! ### ExportPipeline (`handleDownloadAsWord`, App.tsx:458-539) -/

/-- The HTML fragment built for one record (App.tsx:465-476), with the
page-break marker and the three labelled sections of raw markup. -/
def problemFragmentHtml (idx : Nat) (p : Problem) : String :=
  "\n            <div style=\"page-break-after: always;\">\n                <h1>문제 " ++
  Nat.repr (idx + 1) ++
  "</h1>\n                <hr>\n                <h2>문제</h2>\n                <div>" ++
  p.problem ++
  "</div>\n                <h2>정답</h2>\n                <div>" ++
  p.answer ++
  "</div>\n                <h2>풀이</h2>\n                <div>" ++
  p.solution ++
  "</div>\n            </div>\n        "

/-- `problems.map((p, index) => ...)`, carrying the running index. -/
def mapWithIndex (f : Nat → Problem → String) : Nat → List Problem → List String
  | _, [] => []
  | i, p :: rest => f i p :: mapWithIndex f (i + 1) rest

/-- The concatenated content placed into the hidden render container
(App.tsx:465-476, `.join('')`). -/
def contentHtml (problems : List Problem) : String :=
  String.join (mapWithIndex problemFragmentHtml 0 problems)

/-- The standalone Word-document envelope (App.tsx:505-520) wrapped around
the captured rendered markup. -/
def wordDocument (renderedContent : String) : String :=
  "\n            <html xmlns:o=\"urn:schemas-microsoft-com:office:office\" xmlns:w=\"urn:schemas-microsoft-com:office:word\" xmlns=\"http://www.w3.org/TR/REC-html40\">\n                <head>\n                    <meta charset=\"utf-8\">\n                    <title>수학 문제</title>\n                    <style>\n                        body \x7b font-family: \x27Malgun Gothic\x27, sans-serif; \x7d\n                        h1, h2 \x7b color: #333; \x7d\n                        hr \x7b border: 0; border-top: 1px solid #ccc; \x7d\n                    </style>\n                </head>\n                <body>\n                    " ++
  renderedContent ++
  "\n                </body>\n            </html>\n        "

/-- Boundary model of the MathJax render service over the hidden container:
`typesetPromise` resolves (mutating the container's innerHTML by some
transformation), `typesetPromise` rejects, or only the fire-and-forget
`typeset` exists and the code proceeds after a fixed delay with whatever the
container then holds. -/
inductive RenderBehavior where
  | promiseResolves (transform : String → String)
  | promiseRejects
  | noPromiseApi (transform : String → String)

/-- Observable result of one `handleDownloadAsWord` call: the content of the
downloaded .doc blob if one was produced, the App error state set by the
catch block, and whether the hidden render container is still attached to
`document.body` when the call completes. -/
structure DownloadOutcome where
  downloadedDoc : Option String
  errorMessage : Option String
  renderContainerAttached : Bool
deriving DecidableEq, Repr

/-- `handleDownloadAsWord` (App.tsx:458-539).  Empty record list: the guard
at :459 returns before anything is built.  Otherwise the hidden container is
created and appended (:479-484); on a resolving `typesetPromise` (or the
fire-and-forget fallback) the rendered markup is captured, the container is
removed (:502) and the enveloped document is downloaded; when
`typesetPromise` rejects, control jumps from the `await` at :488 straight to
the catch block (:533-535), so `removeChild` at :502 never runs and the
container stays attached — the `finally` only clears the downloading flag. -/
def handleDownloadAsWord (problems : List Problem) (render : RenderBehavior) :
    DownloadOutcome :=
  if problems.length = 0 then ⟨none, none, false⟩
  else
    let html := contentHtml problems
    match render with
    | .promiseResolves t => ⟨some (wordDocument (t html)), none, false⟩
    | .noPromiseApi t => ⟨some (wordDocument (t html)), none, false⟩
    | .promiseRejects => ⟨none, some "Word 파일을 생성하는 데 실패했습니다.", true⟩

end AppMain

/-! ## Helper lemmas -/

theorem String.mk_data_eq (s : String) : String.mk s.data = s := rfl

theorem String.data_append_eq (a b : String) : (a ++ b).data = a.data ++ b.data := rfl

theorem occurs_cons_false {pat : List Char} {c : Char} {rest : List Char}
    (h : occurs pat (c :: rest) = false) :
    startsWithChars pat (c :: rest) = false ∧ occurs pat rest = false := by
  simpa [occurs, Bool.or_eq_false_iff] using h

theorem single_head_ne {a c : Char} {rest : List Char}
    (h : startsWithChars [a] (c :: rest) = false) : ¬c = a := by
  rintro rfl
  simp [startsWithChars] at h

theorem pair_cond_false {a b c : Char} {rest : List Char}
    (h : startsWithChars [a, b] (c :: rest) = false) :
    ¬(c = a ∧ rest.head? = some b) := by
  rintro ⟨rfl, hb⟩
  cases rest with
  | nil => simp at hb
  | cons r rr =>
    have hrb : r = b := by simpa using hb
    subst hrb
    simp [startsWithChars] at h

theorem not_mem_of_occurs_single_false {a : Char} {l : List Char}
    (h : occurs [a] l = false) : a ∉ l := by
  induction l with
  | nil => simp
  | cons c rest ih =>
    obtain ⟨h1, h2⟩ := occurs_cons_false h
    simp only [List.mem_cons]
    rintro (rfl | hm)
    · simp [startsWithChars] at h1
    · exact ih h2 hm

theorem startsWithChars_self_append (l t : List Char) :
    startsWithChars l (l ++ t) = true := by
  induction l with
  | nil => simp [startsWithChars]
  | cons c rest ih => simp [startsWithChars, ih]

theorem stripDelimsAux_eq_self {fuel : Nat} {l : List Char}
    (hfuel : l.length ≤ fuel)
    (h1 : occurs ['$'] l = false)
    (h2 : occurs ['\\', '['] l = false)
    (h3 : occurs ['\\', ']'] l = false) :
    stripDelimsAux fuel l = l := by
  induction fuel generalizing l with
  | zero =>
    cases l with
    | nil => rfl
    | cons c rest => simp at hfuel
  | succ fuel ih =>
    cases l with
    | nil => rfl
    | cons c rest =>
      obtain ⟨hp1, h1'⟩ := occurs_cons_false h1
      obtain ⟨hp2, h2'⟩ := occurs_cons_false h2
      obtain ⟨hp3, h3'⟩ := occurs_cons_false h3
      have hlen : rest.length ≤ fuel := by
        simpa using Nat.le_of_succ_le_succ (by simpa using hfuel)
      simp only [stripDelimsAux]
      rw [if_neg (single_head_ne hp1), if_neg (pair_cond_false hp2),
          if_neg (pair_cond_false hp3)]
      exact congrArg (c :: ·) (ih hlen h1' h2' h3')

theorem replaceAllAux_eq_self {pat rep : List Char} {fuel : Nat} {l : List Char}
    (hfuel : l.length ≤ fuel) (h : occurs pat l = false) :
    replaceAllAux pat rep fuel l = l := by
  induction fuel generalizing l with
  | zero =>
    cases l with
    | nil => rfl
    | cons c rest => simp at hfuel
  | succ fuel ih =>
    cases l with
    | nil => rfl
    | cons c rest =>
      obtain ⟨hp, h'⟩ := occurs_cons_false h
      have hlen : rest.length ≤ fuel := by
        simpa using Nat.le_of_succ_le_succ (by simpa using hfuel)
      simp only [replaceAllAux, hp, Bool.false_eq_true, if_false]
      exact congrArg (c :: ·) (ih hlen h')

theorem replaceFracAux_eq_self {fuel : Nat} {l : List Char}
    (hfuel : l.length ≤ fuel) (h : occurs fracPat l = false) :
    replaceFracAux fuel l = l := by
  induction fuel generalizing l with
  | zero =>
    cases l with
    | nil => rfl
    | cons c rest => simp at hfuel
  | succ fuel ih =>
    cases l with
    | nil => rfl
    | cons c rest =>
      obtain ⟨hp, h'⟩ := occurs_cons_false h
      have hlen : rest.length ≤ fuel := by
        simpa using Nat.le_of_succ_le_succ (by simpa using hfuel)
      simp only [replaceFracAux, hp, Bool.false_eq_true, if_false]
      exact congrArg (c :: ·) (ih hlen h')

theorem stripBraces_eq_self {l : List Char}
    (hl : lbrace ∉ l) (hr : rbrace ∉ l) :
    stripBraces l = l := by
  unfold stripBraces
  rw [List.filter_eq_self]
  intro c hc
  simp only [Bool.not_eq_true', Bool.or_eq_false_iff, beq_eq_false_iff_ne]
  exact ⟨fun e => hl (e ▸ hc), fun e => hr (e ▸ hc)⟩

/-! ## Claim C4 -/

/-- C4 counterexample: the claim "normalize(s) = s for every s containing
none of the tokens `$ { } \times \div \cdot \frac`" is false at the concrete
input `" 4"` (a leading space, then `4`): the input contains none of the
listed tokens, yet the final trim pass of the normalizer maps it to `"4"`. -/
theorem normalize_not_identity_on_untrimmed_plain_text :
    MarkupTokenFree " 4" ∧ SupabaseService.convertLatexToPlainText " 4" ≠ " 4" := by
  constructor
  · decide
  · decide

/-- C4 (amended): the markup normalizer is the identity on plain text once
"plain" also excludes the delimiter escapes and surrounding whitespace that
the normalizer removes: for every string `s` that contains none of
`$ { } \times \div \cdot \frac`, contains neither `\[` nor `\]`, and carries
no leading or trailing whitespace, `convertLatexToPlainText s = s`. -/
theorem normalize_identity_on_plain_trimmed_text (s : String)
    (h : MarkupTokenFree s)
    (hlb : occurs ['\\', '['] s.data = false)
    (hrb : occurs ['\\', ']'] s.data = false)
    (htrim : jsTrim s.data = s.data) :
    SupabaseService.convertLatexToPlainText s = s := by
  obtain ⟨h1, h2, h3, h4, h5, h6, h7⟩ := h
  by_cases hs : s = ""
  · subst hs; rfl
  · show SupabaseService.convertLatexToPlainText s = s
    unfold SupabaseService.convertLatexToPlainText
    rw [if_neg hs]
    show String.mk (jsTrim (stripBraces (replaceFrac
      (replaceAllStr cdotPat ['·'] (replaceAllStr divPat ['÷'] (replaceAllStr timesPat ['x']
        (stripDelims s.data))))))) = s
    unfold stripDelims replaceAllStr replaceFrac
    rw [stripDelimsAux_eq_self (Nat.le_refl _) h1 hlb hrb,
        replaceAllAux_eq_self (Nat.le_refl _) h4,
        replaceAllAux_eq_self (Nat.le_refl _) h5,
        replaceAllAux_eq_self (Nat.le_refl _) h6,
        replaceFracAux_eq_self (Nat.le_refl _) h7,
        stripBraces_eq_self (not_mem_of_occurs_single_false h2)
          (not_mem_of_occurs_single_false h3),
        htrim]

/-- C4 witness: the amended identity instantiated at the concrete plain
string `"2+2"`. -/
theorem normalize_identity_on_plain_trimmed_text_witness :
    MarkupTokenFree "2+2" ∧ SupabaseService.convertLatexToPlainText "2+2" = "2+2" :=
  ⟨by decide,
   normalize_identity_on_plain_trimmed_text "2+2" (by decide) (by decide) (by decide) (by decide)⟩

/-! ## Claim C10 -/

/-- C10: the two copies of the markup normalizer — the App.tsx copy used for
clipboard copy and the supabaseService.ts copy used to build the `_plain`
columns — are extensionally equal. -/
theorem convertLatexToPlainText_copies_agree (s : String) :
    AppMain.convertLatexToPlainText s = SupabaseService.convertLatexToPlainText s := rfl

/-- C10 witness: the two copies agree at a concrete markup input. -/
theorem convertLatexToPlainText_copies_agree_witness :
    AppMain.convertLatexToPlainText "$\\frac\x7b1\x7d\x7b2\x7d$"
      = SupabaseService.convertLatexToPlainText "$\\frac\x7b1\x7d\x7b2\x7d$" :=
  convertLatexToPlainText_copies_agree "$\\frac\x7b1\x7d\x7b2\x7d$"

/-! ## Concrete fixtures used by the closed theorems below -/

/-- A concrete generated record. -/
def sampleProblem : Problem := ⟨"$1+1$", "2", "$1+1=2$"⟩

/-- A service state holding a live Supabase client handle. -/
def connectedSupabaseState : ServiceState :=
  ⟨some ⟨"https://proj.supabase.co", "anon-key"⟩, none, none⟩

/-! ## Claim C1 -/

/-- C1: the claim that the hidden render container is removed on every
outcome is right about the intent but wrong about the code: evaluated at a
one-record export where the render service's `typesetPromise` rejects, the
container is still attached to `document.body` when the call completes (no
document, the error state set), while the resolving path does remove it.
The removal at App.tsx:502 sits inside the `try` block after the awaited
typeset, and neither the catch nor the finally block removes the container. -/
theorem export_render_failure_leaves_container_attached :
    AppMain.handleDownloadAsWord [sampleProblem] .promiseRejects
      = ⟨none, some "Word 파일을 생성하는 데 실패했습니다.", true⟩ ∧
    (AppMain.handleDownloadAsWord [sampleProblem] (.promiseResolves id)).renderContainerAttached
      = false :=
  ⟨rfl, rfl⟩

/-! ## Claim C3 -/

/-- C3 counterexample: the claim that the batch export of an empty record
list returns a well-formed empty document is false at the concrete input
`[]`: no downloadable artifact is produced at all (the guard at App.tsx:459
returns before anything is built). -/
theorem exportBatch_empty_produces_no_document :
    (AppMain.handleDownloadAsWord [] (.promiseResolves id)).downloadedDoc = none := rfl

/-- C3 (amended): calling the batch export with an empty record list is a
guarded no-op for every render behaviour — it produces no document, sets no
error, and leaves no container attached. -/
theorem exportBatch_empty_is_noop (render : AppMain.RenderBehavior) :
    AppMain.handleDownloadAsWord [] render = ⟨none, none, false⟩ := rfl

/-- C3 witness: the amended no-op statement at a concrete render behaviour. -/
theorem exportBatch_empty_is_noop_witness :
    AppMain.handleDownloadAsWord [] (.noPromiseApi id) = ⟨none, none, false⟩ :=
  exportBatch_empty_is_noop (.noPromiseApi id)

/-! ## Claim C5 -/

/-- C5: `saveProblemToDb` with a live client inserts exactly one row carrying
the three raw markup fields, the three normalizer-derived plain-text fields
and the classification fields; for the record
`{statement "$2+2$", answer "4", solution "\frac{4}{1}=4"}` classified
`{Middle, Algebra, Basic}` the row has `answer_plain = "4"` and
`solution_plain = "4/1=4"` (and `problem_plain = "2+2"`). -/
theorem saveProblemToDb_end_to_end_row :
    SupabaseService.saveProblemToDb connectedSupabaseState none
        ⟨"$2+2$", "4", "\\frac\x7b4\x7d\x7b1\x7d=4"⟩ .Middle "Algebra" .Basic
      = (.ok (), [⟨.Middle, "Algebra", .Basic,
                   "$2+2$", "4", "\\frac\x7b4\x7d\x7b1\x7d=4",
                   "2+2", "4", "4/1=4"⟩]) := rfl

/-! ## Claim C2 -/

/-- An App state reached by a successful Supabase connect: the module-level
client handle is held and the React connected flag is set. -/
def appConnectedState : AppMain.AppConnState :=
  let o := SupabaseService.initSupabase initialServiceState "https://proj.supabase.co" "anon-key"
  ⟨o.state, o.success, false, false⟩

/-- C2 counterexample: for the DocumentStore backend the claim is false at a
concrete run.  Starting from a state whose connect succeeded (flag true), the
disconnect button only clears the React flag; a PersistenceDispatcher save
issued afterwards does not fail with a not-connected error — it performs the
write with the old module-level handle. -/
theorem save_after_disconnect_performs_write :
    appConnectedState.isSupabaseConnected = true ∧
    (AppMain.supabaseDisconnectClick appConnectedState).isSupabaseConnected = false ∧
    SupabaseService.saveProblemToDb (AppMain.supabaseDisconnectClick appConnectedState).services
        none sampleProblem .Middle "Algebra" .Basic
      = (.ok (), [SupabaseService.buildProblemRow sampleProblem .Middle "Algebra" .Basic]) :=
  ⟨rfl, rfl, rfl⟩

/-- C2 (amended): only the CloudFileStore disconnect invalidates the held
handle — after `onSignout` the gapi token is cleared and a subsequent Drive
save fails with the not-signed-in error and performs no upload.  The
DocumentStore and RelayBackend disconnect buttons clear only the React
connected flag: the module-level handle survives, so a dispatcher save
issued after disconnect still performs its write with the old handle (the
Supabase save inserts its row; the Mongo save posts to the old backend
URL). -/
theorem disconnect_invalidation_by_backend :
    (∀ (st : AppMain.AppConnState) (tok : String), st.services.gapiToken = some tok →
      (AppMain.onSignout st).services.gapiToken = none ∧
      ∀ outcome p level topic difficulty now,
        GoogleDriveService.saveProblemToDrive (AppMain.onSignout st).services outcome
            p level topic difficulty now
          = (.error GoogleDriveService.driveNotLoggedInMsg, [])) ∧
    (∀ (st : AppMain.AppConnState) (h : SupabaseClient), st.services.supabase = some h →
      (AppMain.supabaseDisconnectClick st).services.supabase = some h ∧
      ∀ p level topic difficulty,
        SupabaseService.saveProblemToDb (AppMain.supabaseDisconnectClick st).services
            none p level topic difficulty
          = (.ok (), [SupabaseService.buildProblemRow p level topic difficulty])) ∧
    (∀ (st : AppMain.AppConnState) (b : String), st.services.backendUrl = some b →
      (AppMain.mongoDisconnectClick st).services.backendUrl = some b ∧
      ∀ p level topic difficulty,
        (MongoDbService.saveProblemToMongoDb (AppMain.mongoDisconnectClick st).services
            (.response 200 "OK" none) p level topic difficulty).2
          = [⟨resolveApiProblems b, ⟨p.problem, p.answer, p.solution, level, topic, difficulty⟩⟩]) := by
  refine ⟨?_, ?_, ?_⟩
  · intro st tok htok
    constructor
    · simp [AppMain.onSignout, htok]
    · intro outcome p level topic difficulty now
      simp [AppMain.onSignout, htok, GoogleDriveService.saveProblemToDrive]
  · intro st h hh
    constructor
    · simpa [AppMain.supabaseDisconnectClick] using hh
    · intro p level topic difficulty
      simp [AppMain.supabaseDisconnectClick, SupabaseService.saveProblemToDb, hh]
  · intro st b hb
    constructor
    · simpa [AppMain.mongoDisconnectClick] using hb
    · intro p level topic difficulty
      simp [AppMain.mongoDisconnectClick, MongoDbService.saveProblemToMongoDb, hb]

/-- C2 witness: the amended statement instantiated at concrete states — a
Drive-connected state where signout makes the save fail not-connected, and
the Supabase-connected fixture where the save after disconnect writes. -/
theorem disconnect_invalidation_by_backend_witness :
    (⟨⟨none, none, some "ya29.token"⟩, false, false, true⟩ :
        AppMain.AppConnState).services.gapiToken = some "ya29.token" ∧
    GoogleDriveService.saveProblemToDrive
        (AppMain.onSignout ⟨⟨none, none, some "ya29.token"⟩, false, false, true⟩).services
        (.response 200) sampleProblem .Middle "Algebra" .Basic "2026-01-01T00:00:00.000Z"
      = (.error GoogleDriveService.driveNotLoggedInMsg, []) ∧
    appConnectedState.services.supabase = some ⟨"https://proj.supabase.co", "anon-key"⟩ ∧
    SupabaseService.saveProblemToDb (AppMain.supabaseDisconnectClick appConnectedState).services
        none sampleProblem .Middle "Algebra" .Basic
      = (.ok (), [SupabaseService.buildProblemRow sampleProblem .Middle "Algebra" .Basic]) :=
  ⟨rfl,
   (disconnect_invalidation_by_backend.1 ⟨⟨none, none, some "ya29.token"⟩, false, false, true⟩
       "ya29.token" rfl).2 (.response 200) sampleProblem .Middle "Algebra" .Basic
       "2026-01-01T00:00:00.000Z",
   rfl,
   (disconnect_invalidation_by_backend.2.1 appConnectedState
       ⟨"https://proj.supabase.co", "anon-key"⟩ rfl).2 sampleProblem .Middle "Algebra" .Basic⟩

/-! ## Claim C8 -/

/-- C8: the claim that a non-success upload status is surfaced with its cause
preserved is right about the intent but wrong about the code: at a concrete
upload returning status 500, the surfaced error is the fixed generic message
(which does not even contain the digits 500), because the detailed status
error thrown at googleDriveService.ts:149 inside the `try` block is caught by
the function's own catch at :151-154 and replaced wholesale. -/
theorem drive_save_error_replaced_by_generic_message :
    (GoogleDriveService.saveProblemToDrive ⟨none, none, some "ya29.token"⟩ (.response 500)
        sampleProblem .Middle "Algebra" .Basic "2026-01-01T00:00:00.000Z").1
      = .error GoogleDriveService.driveGenericSaveErrorMsg ∧
    occurs ['5', '0', '0'] GoogleDriveService.driveGenericSaveErrorMsg.data = false ∧
    GoogleDriveService.driveStatusErrorMsg 500 ≠ GoogleDriveService.driveGenericSaveErrorMsg :=
  ⟨rfl, by decide, by decide⟩

/-! ## Claim C6 -/

/-- C6 counterexample: for the DocumentStore backend the claim is false at
the concrete credentials `("ftp://example.com", "anon-key")`: the URL is not
an absolute http/https URL (it does not parse as one), yet the connect
operation reports success instead of the failure result — `initSupabase`
validates only nonemptiness and performs no URL-shape validation. -/
theorem initSupabase_accepts_non_http_url :
    parseHttpUrl "ftp://example.com" = none ∧
    (SupabaseService.initSupabase initialServiceState "ftp://example.com" "anon-key").success
      = true ∧
    (SupabaseService.initSupabase initialServiceState "ftp://example.com" "anon-key").networkCalls
      = [] :=
  ⟨rfl, rfl, rfl⟩

/-- C6 (amended): the RelayBackend connect rejects empty, non-http(s)-prefixed
and unparseable URLs with a failure result and no network call; the
DocumentStore connect rejects empty credentials with a failure result and no
network call, but performs no URL-shape validation — any nonempty url and key
yield success, also without a network call (the CloudFileStore connect is not
covered: it performs no pre-network credential-shape validation at all). -/
theorem connect_credential_shape_validation :
    (∀ (st : ServiceState) (url : String),
      (url = "" ∨ (strStartsWith url "http://" = false ∧ strStartsWith url "https://" = false) ∨
        parseHttpUrl url = none) →
      (MongoDbService.initMongoDb st url).success = false ∧
      (MongoDbService.initMongoDb st url).networkCalls = []) ∧
    (∀ (st : ServiceState) (url key : String), url = "" ∨ key = "" →
      (SupabaseService.initSupabase st url key).success = false ∧
      (SupabaseService.initSupabase st url key).networkCalls = []) ∧
    (∀ (st : ServiceState) (url key : String), url ≠ "" → key ≠ "" →
      (SupabaseService.initSupabase st url key).success = true ∧
      (SupabaseService.initSupabase st url key).networkCalls = []) := by
  refine ⟨?_, ?_, ?_⟩
  · intro st url hbad
    unfold MongoDbService.initMongoDb
    rcases hbad with rfl | ⟨hp1, hp2⟩ | hparse
    · simp
    · rw [if_neg]
      · exact ⟨rfl, rfl⟩
      · rintro ⟨-, h | h⟩
        · exact absurd h (by simp [hp1])
        · exact absurd h (by simp [hp2])
    · by_cases hcond : url ≠ "" ∧
        (strStartsWith url "http://" = true ∨ strStartsWith url "https://" = true)
      · rw [if_pos hcond, hparse]
        exact ⟨rfl, rfl⟩
      · rw [if_neg hcond]
        exact ⟨rfl, rfl⟩
  · intro st url key hbad
    unfold SupabaseService.initSupabase
    rw [if_neg]
    · exact ⟨rfl, rfl⟩
    · rintro ⟨h1, h2⟩
      rcases hbad with rfl | rfl
      · exact h1 rfl
      · exact h2 rfl
  · intro st url key h1 h2
    unfold SupabaseService.initSupabase
    rw [if_pos ⟨h1, h2⟩]
    exact ⟨rfl, rfl⟩

/-- C6 witness: the amended statement at concrete inputs — an unparseable
http-prefixed Relay URL, empty DocumentStore credentials, and nonempty but
non-URL DocumentStore credentials. -/
theorem connect_credential_shape_validation_witness :
    parseHttpUrl "http://" = none ∧
    (MongoDbService.initMongoDb initialServiceState "http://").success = false ∧
    (SupabaseService.initSupabase initialServiceState "" "anon-key").success = false ∧
    (SupabaseService.initSupabase initialServiceState "ftp://example.com" "anon-key").success
      = true :=
  ⟨rfl,
   (connect_credential_shape_validation.1 initialServiceState "http://" (Or.inr (Or.inr rfl))).1,
   (connect_credential_shape_validation.2.1 initialServiceState "" "anon-key" (Or.inl rfl)).1,
   (connect_credential_shape_validation.2.2 initialServiceState "ftp://example.com" "anon-key"
      (by decide) (by decide)).1⟩

/-! ## Claim C7 -/

/-- A service state whose stored RelayBackend URL carries a path segment. -/
def mongoPathBaseState : ServiceState := ⟨none, some "https://example.com/v1", none⟩

/-- C7 counterexample: the claim that the save posts to `<base>/api/problems`
appended to the configured backend URL is false at the concrete base
`"https://example.com/v1"`: the code resolves `api/problems` as a relative
URL against the base, so the single POST goes to
`https://example.com/api/problems`, not to the appended
`https://example.com/v1/api/problems`. -/
theorem mongo_endpoint_not_plain_append :
    (MongoDbService.saveProblemToMongoDb mongoPathBaseState (.response 200 "OK" none)
        sampleProblem .Middle "Algebra" .Basic).2
      = [⟨"https://example.com/api/problems",
          ⟨"$1+1$", "2", "$1+1=2$", .Middle, "Algebra", .Basic⟩⟩] ∧
    "https://example.com/api/problems" ≠ "https://example.com/v1" ++ "/api/problems" :=
  ⟨rfl, by decide⟩

/-- C7 (amended): with a stored backend URL `b`, the RelayBackend save
performs exactly one POST whose body merges the record fields and the
classification fields, addressed to the WHATWG resolution of the relative
reference `api/problems` against `b` (which equals appending
`/api/problems` only when the base path is `/`); a 2xx response yields
success; a non-2xx response yields a failure whose cause is the JSON body's
truthy `message` when one parses and otherwise the HTTP status line, behind
the fixed save-failure prefix; and a network-level fetch rejection is
surfaced as the distinct connection-failure message, which never equals an
application-level rejection message. -/
theorem saveProblemToMongoDb_contract (st : ServiceState) (b : String)
    (hb : st.backendUrl = some b) (resp : MongoDbService.FetchOutcome) (p : Problem)
    (level : Level) (topic : String) (difficulty : Difficulty) :
    (MongoDbService.saveProblemToMongoDb st resp p level topic difficulty).2
      = [⟨resolveApiProblems b, ⟨p.problem, p.answer, p.solution, level, topic, difficulty⟩⟩] ∧
    (∀ status statusText jsonMessage,
      resp = .response status statusText jsonMessage →
      (200 ≤ status ∧ status < 300 →
        (MongoDbService.saveProblemToMongoDb st resp p level topic difficulty).1 = .ok ()) ∧
      (¬(200 ≤ status ∧ status < 300) →
        (MongoDbService.saveProblemToMongoDb st resp p level topic difficulty).1
          = .error (MongoDbService.mongoSavePrefix ++
              MongoDbService.mongoErrorCause status statusText jsonMessage))) ∧
    (resp = .networkError →
      (MongoDbService.saveProblemToMongoDb st resp p level topic difficulty).1
        = .error MongoDbService.mongoConnFailMsg) ∧
    (∀ cause, MongoDbService.mongoConnFailMsg ≠ MongoDbService.mongoSavePrefix ++ cause) := by
  refine ⟨?_, ?_, ?_, ?_⟩
  · cases resp with
    | networkError => simp [MongoDbService.saveProblemToMongoDb, hb]
    | response status statusText jsonMessage =>
      by_cases hok : 200 ≤ status ∧ status < 300 <;>
        simp [MongoDbService.saveProblemToMongoDb, hb, hok]
  · intro status statusText jsonMessage hresp
    subst hresp
    constructor
    · intro hok
      simp [MongoDbService.saveProblemToMongoDb, hb, hok]
    · intro hok
      simp [MongoDbService.saveProblemToMongoDb, hb, hok]
  · intro hresp
    subst hresp
    simp [MongoDbService.saveProblemToMongoDb, hb]
  · intro cause heq
    have hsw : strStartsWith (MongoDbService.mongoSavePrefix ++ cause)
        MongoDbService.mongoSavePrefix = true := by
      unfold strStartsWith
      rw [String.data_append_eq]
      exact startsWithChars_self_append _ _
    rw [← heq] at hsw
    have hsw2 : strStartsWith MongoDbService.mongoConnFailMsg
        MongoDbService.mongoSavePrefix = false := by decide
    rw [hsw2] at hsw
    exact Bool.noConfusion hsw

/-- C7 witness: the contract at a concrete connected state, for a concrete
non-2xx response carrying a JSON message. -/
theorem saveProblemToMongoDb_contract_witness :
    mongoPathBaseState.backendUrl = some "https://example.com/v1" ∧
    (MongoDbService.saveProblemToMongoDb mongoPathBaseState (.response 422 "Unprocessable Entity"
        (some "duplicate problem")) sampleProblem .Middle "Algebra" .Basic).1
      = .error (MongoDbService.mongoSavePrefix ++
          MongoDbService.mongoErrorCause 422 "Unprocessable Entity" (some "duplicate problem")) :=
  ⟨rfl,
   ((saveProblemToMongoDb_contract mongoPathBaseState "https://example.com/v1" rfl
        (.response 422 "Unprocessable Entity" (some "duplicate problem")) sampleProblem .Middle
        "Algebra" .Basic).2.1 422 "Unprocessable Entity" (some "duplicate problem") rfl).2
     (by decide)⟩

/-! ## Claim C9 -/

/-- C9: a failed re-connect of the RelayBackend keeps or clears the stored
handle exactly as the claim says: a string failing the `http(s)://` prefix
test (or empty) returns false and leaves the previously stored backend URL in
place, so a subsequent save still posts to the old URL; only the branch where
the string has the prefix but fails URL parsing clears the stored handle to
null. -/
theorem initMongoDb_failure_branch_handle_retention (st : ServiceState) (b url : String)
    (hb : st.backendUrl = some b) :
    (¬(url ≠ "" ∧ (strStartsWith url "http://" = true ∨ strStartsWith url "https://" = true)) →
      (MongoDbService.initMongoDb st url).success = false ∧
      (MongoDbService.initMongoDb st url).state.backendUrl = some b ∧
      ∀ resp p level topic difficulty,
        ((MongoDbService.saveProblemToMongoDb (MongoDbService.initMongoDb st url).state resp
            p level topic difficulty).2.map MongoDbService.MongoPost.url)
          = [resolveApiProblems b]) ∧
    ((strStartsWith url "http://" = true ∨ strStartsWith url "https://" = true) →
      parseHttpUrl url = none →
      (MongoDbService.initMongoDb st url).success = false ∧
      (MongoDbService.initMongoDb st url).state.backendUrl = none) := by
  constructor
  · intro hbad
    have hstate : MongoDbService.initMongoDb st url = ⟨false, st, []⟩ := by
      unfold MongoDbService.initMongoDb
      rw [if_neg hbad]
    refine ⟨by rw [hstate], by rw [hstate]; exact hb, ?_⟩
    intro resp p level topic difficulty
    rw [hstate]
    cases resp with
    | networkError => simp [MongoDbService.saveProblemToMongoDb, hb]
    | response status statusText jsonMessage =>
      by_cases hok : 200 ≤ status ∧ status < 300 <;>
        simp [MongoDbService.saveProblemToMongoDb, hb, hok]
  · intro hpre hparse
    have hne : url ≠ "" := by
      intro hurl
      subst hurl
      rcases hpre with h | h
      · exact absurd h (by decide)
      · exact absurd h (by decide)
    unfold MongoDbService.initMongoDb
    rw [if_pos ⟨hne, hpre⟩, hparse]
    exact ⟨rfl, rfl⟩

/-- C9 witness: a state holding an old backend URL — a `mongodb://` string
fails the prefix test, returns false, keeps the old URL, and a save still
posts to the old endpoint; `"http://"` has the prefix but fails parsing and
clears the handle. -/
theorem initMongoDb_failure_branch_handle_retention_witness :
    (⟨none, some "https://old.example.com", none⟩ : ServiceState).backendUrl
      = some "https://old.example.com" ∧
    (MongoDbService.initMongoDb ⟨none, some "https://old.example.com", none⟩
        "mongodb://db.example.com").state.backendUrl = some "https://old.example.com" ∧
    ((MongoDbService.saveProblemToMongoDb
        (MongoDbService.initMongoDb ⟨none, some "https://old.example.com", none⟩
          "mongodb://db.example.com").state (.response 200 "OK" none) sampleProblem .Middle
        "Algebra" .Basic).2.map MongoDbService.MongoPost.url)
      = [resolveApiProblems "https://old.example.com"] ∧
    (MongoDbService.initMongoDb ⟨none, some "https://old.example.com", none⟩
        "http://").state.backendUrl = none :=
  ⟨rfl,
   ((initMongoDb_failure_branch_handle_retention ⟨none, some "https://old.example.com", none⟩
        "https://old.example.com" "mongodb://db.example.com" rfl).1 (by decide)).2.1,
   ((initMongoDb_failure_branch_handle_retention ⟨none, some "https://old.example.com", none⟩
        "https://old.example.com" "mongodb://db.example.com" rfl).1 (by decide)).2.2
     (.response 200 "OK" none) sampleProblem .Middle "Algebra" .Basic,
   ((initMongoDb_failure_branch_handle_retention ⟨none, some "https://old.example.com", none⟩
        "https://old.example.com" "http://" rfl).2 (Or.inl (by decide)) rfl).2⟩
